import Mathlib

/-!
# lil: wiring of the URL shortener (`main.go`)

A shallow embedding of `main.go`: the configuration accessors it calls, the
connection pool it builds, the route table it registers and the effect of
`main` on the package-level variables.  Machine integers are `Int` with an
explicit wrap to 64 bits where arithmetic happens.
-/

namespace Lil

/-! ## Machine integers and durations -/

/-- Two's-complement wrap of an integer into the `int64` range. -/
def wrapInt64 (x : Int) : Int :=
  (x + 2 ^ 63) % 2 ^ 64 - 2 ^ 63

/-- The `time.Duration` type is an `int64` count of nanoseconds. -/
abbrev Duration := Int

/-- The constant `time.Millisecond`, in nanoseconds. -/
def Millisecond : Duration := 1000000

/-- Multiplication of two `time.Duration` values (`int64`, wrapping). -/
def Duration.mul (a b : Duration) : Duration :=
  wrapInt64 (a * b)

/-! ## Configuration store (`koanf`) -/

/-- A configuration value as held in the merged configuration map of `koanf`:
an integer, a string, a boolean, or a value of any other kind that a TOML file
can give (a float, a date, an array, a table), which the accessors only ever
see through its `%v` rendering. -/
inductive Value where
  | int (n : Int)
  | str (s : String)
  | bool (b : Bool)
  | other (rendering : String)
deriving DecidableEq, Repr

/-- The `%v` rendering of a configuration value. -/
def Value.format : Value → String
  | .int n => toString n
  | .str s => s
  | .bool true => "true"
  | .bool false => "false"
  | .other rendering => rendering

/-- The string conversions of the Go standard library that the accessors fall
back on.  Each returns the zero value on a parse error. -/
structure Strconv where
  /-- Numeric reading of a string, with the fraction dropped, as an `int64`;
  `0` on error. -/
  parseInt : String → Int
  /-- Reading by `strconv.ParseBool`; `false` on error. -/
  parseBool : String → Bool
  /-- The unit-suffixed grammar of `time.ParseDuration`; `0` on error. -/
  parseUnits : String → Duration

/-- The function `time.ParseDuration`: an optional sign is consumed, a bare `0`
is zero, the empty string is an error (zero), the rest is the unit grammar. -/
def Strconv.ParseDuration (sc : Strconv) (s : String) : Duration :=
  let body : List Char :=
    match s.data with
    | c :: cs => if c = '-' ∨ c = '+' then cs else c :: cs
    | [] => []
  if body = ['0'] then 0
  else if body = [] then 0
  else sc.parseUnits s

/-- The merged configuration: flattened dotted keys to values, together with
the string conversions in use. -/
structure Koanf where
  data : List (String × Value)
  conv : Strconv

/-- A dotted configuration key. -/
abbrev Key := String

/-- Raw lookup of a key. -/
def Koanf.Get (kf : Koanf) (path : Key) : Option Value :=
  kf.data.lookup path

/-- `Int64`: an integer value is returned as is, any other value is rendered
and parsed, an absent key is `0`. -/
def Koanf.Int64 (kf : Koanf) (path : Key) : Int :=
  match kf.Get path with
  | some (.int n) => n
  | some v => kf.conv.parseInt v.format
  | none => 0

/-- `Int` is `int(Int64(path))`; `int` is 64 bits wide. -/
def Koanf.Int (kf : Koanf) (path : Key) : Int :=
  kf.Int64 path

/-- `String`: a string value is returned as is, any other value is rendered,
an absent key is the empty string. -/
def Koanf.String (kf : Koanf) (path : Key) : String :=
  match kf.Get path with
  | some v => v.format
  | none => ""

/-- `Bool`: a boolean value is returned as is, any other value is rendered and
parsed, an absent key is `false`. -/
def Koanf.Bool (kf : Koanf) (path : Key) : Bool :=
  match kf.Get path with
  | some (.bool b) => b
  | some v => kf.conv.parseBool v.format
  | none => false

/-- `Duration`: a non-zero integer reading is taken as the duration itself
(nanoseconds); otherwise the string form is parsed as a duration. -/
def Koanf.Duration (kf : Koanf) (path : Key) : Lil.Duration :=
  if kf.Int64 path ≠ 0 then kf.Int64 path
  else kf.conv.ParseDuration (kf.String path)

/-! ## Connection pool (`redigo`) -/

/-- A dial option of `redis.Dial`. -/
inductive DialOption where
  | DialPassword (password : String)
  | DialConnectTimeout (d : Duration)
  | DialReadTimeout (d : Duration)
  | DialWriteTimeout (d : Duration)
deriving DecidableEq, Repr

/-- The options record that `redis.Dial` fills in from its option list. -/
structure dialOptions where
  readTimeout : Duration := 0
  writeTimeout : Duration := 0
  connectTimeout : Duration := 0
  password : String := ""
deriving DecidableEq, Repr

/-- Effect of one option on the options record. -/
def DialOption.apply (d : dialOptions) : DialOption → dialOptions
  | .DialPassword p => { d with password := p }
  | .DialConnectTimeout t => { d with connectTimeout := t }
  | .DialReadTimeout t => { d with readTimeout := t }
  | .DialWriteTimeout t => { d with writeTimeout := t }

/-- An established connection: where it was dialled, the timeout its dialler
was given, and the per-operation read and write timeouts it enforces. -/
structure Conn where
  network : String
  address : String
  connectTimeout : Duration
  readTimeout : Duration
  writeTimeout : Duration
  password : String
deriving DecidableEq, Repr

/-- The network as seen by a dial. -/
structure Net where
  /-- Connecting to a network address under a connect timeout: an error
  message or success. -/
  dial : String → String → Duration → Except String Unit
  /-- The reply of the server to `AUTH` with a password. -/
  auth : String → Except String Unit

/-- The function `redis.Dial`: the options are applied in order, the network
connection is made under the connect timeout, the connection carries the read
and write timeouts, and a non-empty password is sent with `AUTH`; an error of
either step is the error of the dial. -/
def redisDial (net : Net) (network address : String) (options : List DialOption) :
    Except String Conn :=
  let d := options.foldl DialOption.apply {}
  match net.dial network address d.connectTimeout with
  | .error e => .error e
  | .ok () =>
    let c : Conn :=
      { network := network, address := address, connectTimeout := d.connectTimeout,
        readTimeout := d.readTimeout, writeTimeout := d.writeTimeout,
        password := d.password }
    if d.password ≠ "" then
      match net.auth d.password with
      | .error e => .error e
      | .ok () => .ok c
    else .ok c

/-- The fields of `redis.Pool`.  A field that a literal leaves out has its zero
value. -/
structure Pool where
  Dial : Net → Except String Conn
  MaxIdle : Int := 0
  MaxActive : Int := 0
  IdleTimeout : Duration := 0
  Wait : Bool := false
  MaxConnLifetime : Duration := 0

/-- Outcome of asking the pool for a connection, as far as the limit on active
connections is concerned. -/
inductive Admission where
  /-- The caller goes on to reuse or dial a connection. -/
  | proceed
  /-- The caller blocks until a connection is returned to the pool. -/
  | wait
  /-- The caller fails at once with `ErrPoolExhausted`. -/
  | rejected
deriving DecidableEq, Repr

/-- The limit check of `Pool.Get` with `active` connections handed out: the
limit applies only when `MaxActive` is positive; at the limit a pool with
`Wait` blocks the caller and a pool without it rejects. -/
def Pool.admission (p : Pool) (active : Int) : Admission :=
  if 0 < p.MaxActive ∧ p.MaxActive ≤ active then
    (if p.Wait then .wait else .rejected)
  else .proceed

/-- The idle pruning of `Pool.Get`: a connection idle since `idleSince` is closed
at time `now` only when `IdleTimeout` is positive and has elapsed. -/
def Pool.prunesIdle (p : Pool) (idleSince now : Int) : Bool :=
  decide (0 < p.IdleTimeout ∧ idleSince + p.IdleTimeout < now)

/-- The function `getRedisPool` of `main.go`. -/
def getRedisPool (address : String) (password : String) (maxActive : Int) (maxIdle : Int)
    (timeout : Duration) : Pool :=
  { Wait := true,
    MaxActive := maxActive,
    MaxIdle := maxIdle,
    Dial := fun net =>
      redisDial net "tcp" address
        [ DialOption.DialPassword password,
          DialOption.DialConnectTimeout timeout,
          DialOption.DialReadTimeout timeout,
          DialOption.DialWriteTimeout timeout ] }

/-! ## Routing (`chi`) -/

/-- HTTP request methods used by the route table. -/
inductive Method where
  | GET
  | POST
  | DELETE
  | PUT
deriving DecidableEq, Repr

/-- The request handlers that the routes of `main` refer to, by name (they are
defined in other files of package `main`). -/
inductive HandlerFunc where
  | handleWelcome
  | handleRedirect
  | handlePageRedirect
  | handleGetRedirects
  | handleDelete
  | handleSearch
  | handleCreate
deriving DecidableEq, Repr

/-- Middlewares installed with `router.Use`. -/
inductive Middleware where
  | Logger
  | RedirectSlashes
deriving DecidableEq, Repr

/-- One registration: method, pattern string and handler. -/
structure Route where
  method : Method
  pattern : String
  handler : HandlerFunc
deriving DecidableEq, Repr

/-- The router: its middleware stack and its registrations, in order. -/
structure Mux where
  middlewares : List Middleware := []
  routes : List Route := []
deriving DecidableEq, Repr

/-- `router.Use`. -/
def Mux.Use (mx : Mux) (m : Middleware) : Mux :=
  { mx with middlewares := mx.middlewares ++ [m] }

/-- `router.Get`. -/
def Mux.Get (mx : Mux) (pattern : String) (h : HandlerFunc) : Mux :=
  { mx with routes := mx.routes ++ [⟨Method.GET, pattern, h⟩] }

/-- `router.Delete`. -/
def Mux.Delete (mx : Mux) (pattern : String) (h : HandlerFunc) : Mux :=
  { mx with routes := mx.routes ++ [⟨Method.DELETE, pattern, h⟩] }

/-- `router.Post`. -/
def Mux.Post (mx : Mux) (pattern : String) (h : HandlerFunc) : Mux :=
  { mx with routes := mx.routes ++ [⟨Method.POST, pattern, h⟩] }

/-- Split a character list at every `/`. -/
def splitSlash : List Char → List (List Char)
  | [] => [[]]
  | c :: cs =>
    if c = '/' then [] :: splitSlash cs
    else
      match splitSlash cs with
      | [] => [[c]]
      | s :: ss => (c :: s) :: ss

/-- The segments of a rooted path: `/` has none, `/a/b` has `a` and `b`.  A
path that does not start with `/` has no reading. -/
def pathSegments (path : List Char) : Option (List (List Char)) :=
  match path with
  | [] => none
  | c :: rest =>
    if c = '/' then (if rest = [] then some [] else some (splitSlash rest))
    else none

/-- One segment of a route pattern: literal text or a named parameter. -/
inductive Segment where
  | static (s : List Char)
  | param (key : List Char)
deriving DecidableEq, Repr

/-- Read one pattern segment: `{key}` is a parameter, text without braces is
literal, anything else is outside the patterns handled here. -/
def parseSegment (s : List Char) : Option Segment :=
  match s with
  | [] => some (.static [])
  | c :: cs =>
    if c = '{' then
      (if cs.getLast? = some '}' ∧ '{' ∉ cs.dropLast ∧ '}' ∉ cs.dropLast
        then some (.param cs.dropLast) else none)
    else if '{' ∈ s ∨ '}' ∈ s then none
    else some (.static s)

/-- The parameter keys of a parsed pattern, in order. -/
def paramKeys : List Segment → List (List Char)
  | [] => []
  | .static _ :: p => paramKeys p
  | .param k :: p => k :: paramKeys p

/-- A route while it is being matched: the part of the pattern still to match,
and what the endpoint carries. -/
structure Endpoint where
  method : Method
  rest : List Segment
  keys : List (List Char)
  handler : HandlerFunc
deriving DecidableEq, Repr

/-- Parse a registration into an endpoint. -/
def Route.endpoint (r : Route) : Option Endpoint :=
  match pathSegments r.pattern.data with
  | none => none
  | some segs =>
    match segs.mapM parseSegment with
    | none => none
    | some p => some ⟨r.method, p, paramKeys p, r.handler⟩

/-- Endpoints whose next segment is the literal `s`, advanced past it. -/
def stepStatic (s : List Char) (es : List Endpoint) : List Endpoint :=
  es.filterMap fun e =>
    match e.rest with
    | .static t :: p => if t = s then some { e with rest := p } else none
    | _ => none

/-- Endpoints whose next segment is a parameter, advanced past it. -/
def stepParam (es : List Endpoint) : List Endpoint :=
  es.filterMap fun e =>
    match e.rest with
    | .param _ :: p => some { e with rest := p }
    | _ => none

/-- Lookup in the route tree of `chi`, segment by segment.  At each segment the literal edges are tried
first and the parameter edge second (a parameter never binds the empty
string); a branch that ends on a node without an endpoint for the method is
abandoned and the search backtracks.  `vals` are the parameter values bound so
far.  The result is the handler and the bound parameters. -/
def findRoute (method : Method) :
    List Endpoint → List (List Char) → List (List Char) →
      Option (HandlerFunc × List (String × String))
  | es, vals, [] =>
    match es.find? (fun e => e.rest = [] ∧ e.method = method) with
    | some e => some (e.handler, (e.keys.map String.mk).zip (vals.map String.mk))
    | none => none
  | es, vals, s :: segs =>
    match findRoute method (stepStatic s es) vals segs with
    | some r => some r
    | none =>
      if s = [] then none
      else findRoute method (stepParam es) (vals ++ [s]) segs

/-- What the router does with a request. -/
inductive Dispatch where
  /-- A handler runs, with these URL parameters. -/
  | served (h : HandlerFunc) (params : List (String × String))
  /-- No endpoint: the not-found or method-not-allowed response. -/
  | noRoute
  /-- The `RedirectSlashes` middleware answered with a redirect to this path. -/
  | redirected (path : String)
deriving DecidableEq, Repr

/-- The router proper, after the middlewares. -/
def Mux.routeHTTP (mx : Mux) (method : Method) (path : String) : Dispatch :=
  match pathSegments path.data with
  | none => .noRoute
  | some segs =>
    match findRoute method (mx.routes.filterMap Route.endpoint) [] segs with
    | some (h, ps) => .served h ps
    | none => .noRoute

/-- Run a request through the middleware stack and then the router.  `Logger`
passes the request on; `RedirectSlashes` redirects a path longer than one
character that ends in `/` to the path without it. -/
def Mux.serveWith (mx : Mux) (method : Method) (path : String) : List Middleware → Dispatch
  | [] => mx.routeHTTP method path
  | .Logger :: ms => mx.serveWith method path ms
  | .RedirectSlashes :: ms =>
    if path.data.length > 1 ∧ path.data.getLast? = some '/' then
      .redirected (String.mk path.data.dropLast)
    else mx.serveWith method path ms

/-- `ServeHTTP` of the router. -/
def Mux.ServeHTTP (mx : Mux) (method : Method) (path : String) : Dispatch :=
  mx.serveWith method path mx.middlewares

/-! ## Link Store -/

/-- Modelled from the spec: what the data model fixes about codes and targets
(package `store` is not among the sources): the code length (configurable,
default 8, positive), the code alphabet, the reserved path segment of
interstitial links, and the syntactic test for an absolute URL, which the
empty string fails. -/
structure LinkRules where
  codeLength : Nat
  codeLength_pos : 0 < codeLength
  alphabet : List Char
  reserved : String
  absoluteURL : String → Bool
  absoluteURL_empty : absoluteURL "" = false

/-- Modelled from the spec: `Validate(candidate)` of the Code Generator checks
the length, membership of every character in the alphabet, and that the
candidate is not the reserved path segment. -/
def LinkRules.Validate (ru : LinkRules) (candidate : String) : Bool :=
  decide (candidate.length = ru.codeLength) &&
    candidate.data.all (fun c => decide (c ∈ ru.alphabet)) &&
    decide (candidate ≠ ru.reserved)

/-- Modelled from the spec: a short code as it may appear in a record: a
string that passes `Validate`, as every generated code of the data model
does. -/
abbrev Code (ru : LinkRules) := { code : String // ru.Validate code = true }

/-- Modelled from the spec: a valid target: a syntactically valid absolute
URL. -/
abbrev TargetURL (ru : LinkRules) := { url : String // ru.absoluteURL url = true }

/-- Modelled from the spec: the record `ShortLinkRecord` of the data model
(package `store` is not among the sources).  Times are in seconds. -/
structure ShortLinkRecord (ru : LinkRules) where
  code : Code ru
  target_url : TargetURL ru
  created_at : Nat
  expires_at : Option Nat
deriving DecidableEq

/-- Modelled from the spec: the transport-level failures of the Pooled Store
Client. -/
inductive PoolError where
  | ConnectTimeout
  | OperationTimeout
deriving DecidableEq, Repr

/-- Modelled from the spec: how the Pooled Store Client fared in carrying one
operation to the backing store. -/
abbrev Transport := Except PoolError Unit

/-- Modelled from the spec: the errors of the Link Store: the domain errors and
`Unavailable`, into which every transport-level failure is wrapped. -/
inductive StoreError where
  | CodeCollision
  | NotFound
  | Unavailable
deriving DecidableEq, Repr

/-- Modelled from the spec: the contents of the Link Store (package
`store/redis` is not among the sources): the records held by the backing
store, in insertion order. -/
structure LinkStore (ru : LinkRules) where
  records : List (ShortLinkRecord ru)
deriving DecidableEq

/-- Modelled from the spec: a record whose expiry is present and not in the
future is treated as absent. -/
def ShortLinkRecord.expired {ru : LinkRules} (r : ShortLinkRecord ru) (now : Nat) : Bool :=
  match r.expires_at with
  | none => false
  | some t => decide (t ≤ now)

/-- Modelled from the spec: the live record stored under a code at a time, if
any; an expired record counts as absent. -/
def LinkStore.lookup {ru : LinkRules} (s : LinkStore ru) (code : Code ru) (now : Nat) :
    Option (ShortLinkRecord ru) :=
  s.records.find? (fun r => decide (r.code = code) && !r.expired now)

/-- Modelled from the spec: `Create(code, target_url, ttl?)` routes through the
Pooled Store Client, whose failure is `Unavailable` and leaves no record
behind.  Otherwise it is one atomic check-and-set: the record is written only
if `code` is not already present, else `CodeCollision` is signalled and
nothing is written.  A `ttl` is handed to the native expiry of the backing
store, which has evicted what expired under the same code. -/
def LinkStore.Create {ru : LinkRules} (s : LinkStore ru) (code : Code ru)
    (target_url : TargetURL ru) (ttl : Option Nat) (now : Nat) (link : Transport) :
    Except StoreError (ShortLinkRecord ru) × LinkStore ru :=
  match link with
  | .error _ => (.error .Unavailable, s)
  | .ok () =>
    match s.lookup code now with
    | some _ => (.error .CodeCollision, s)
    | none =>
      let r : ShortLinkRecord ru :=
        { code := code, target_url := target_url, created_at := now,
          expires_at := ttl.map (fun t => now + t) }
      (.ok r, { records := s.records.filter (fun x => decide (x.code ≠ code)) ++ [r] })

/-- Modelled from the spec: `Get(code)` routes through the Pooled Store Client,
whose failure is `Unavailable`; otherwise it returns the record, or `NotFound`
for a miss and for an expired record alike. -/
def LinkStore.Get {ru : LinkRules} (s : LinkStore ru) (code : Code ru) (now : Nat)
    (link : Transport) : Except StoreError (ShortLinkRecord ru) :=
  match link with
  | .error _ => .error .Unavailable
  | .ok () =>
    match s.lookup code now with
    | some r => .ok r
    | none => .error .NotFound

/-- Modelled from the spec: `Create(code, target_url)` at time `t₀` followed by
`Get(code)` at time `t₁`, each with its own transport outcome; the value is
what `Get` returns. -/
def LinkStore.createThenGet {ru : LinkRules} (s : LinkStore ru) (code : Code ru)
    (target_url : TargetURL ru) (t₀ t₁ : Nat) (link₀ link₁ : Transport) :
    Except StoreError (ShortLinkRecord ru) :=
  (s.Create code target_url none t₀ link₀).2.Get code t₁ link₁

/-! ## The program: package variables and `main` -/

/-- A parsed template, identified by the file it was read from. -/
structure Template where
  file : String
deriving DecidableEq, Repr

/-- Modelled from the spec: the pool-backed store handle (package `store/redis`
is not among the sources); it holds the pool it was built on. -/
structure Store where
  pool : Pool

/-- Modelled from the spec: the constructor `redisstore.New` (package
`store/redis` is not among the sources), which builds the store on a pool. -/
def redisstoreNew (pool : Pool) : Store :=
  { pool := pool }

/-- The fields of `http.Server` that `main` sets. -/
structure Server where
  Addr : String
  Handler : Mux
  ReadTimeout : Duration
  WriteTimeout : Duration
  IdleTimeout : Duration
deriving DecidableEq, Repr

/-- What `main` observes of its surroundings. -/
structure Env where
  /-- Result of `template.ParseFiles` on a path. -/
  ParseFiles : String → Except String Template
  /-- The error with which `ListenAndServe` returns, or `none` while the
  server keeps serving. -/
  ListenAndServe : Server → Option String

/-- The package-level variables of `main.go` together with the observable
effects of a run: what was printed, what was logged, the router that was
built, the server that was started and the exit status of a fatal log. -/
structure World where
  buildVersion : String := "unknown"
  buildDate : String := "unknown"
  str : Option Store := none
  baseURL : String := ""
  redirectTpl : Option Template := none
  shortURLLength : Int := 8
  redirectTplPath : String := "./templates/redirect_page.tpl"
  stdout : List String := []
  logged : List String := []
  router : Option Mux := none
  server : Option Server := none
  exited : Option Nat := none

/-- The constant `pageRedirectPrefix`. -/
def pageRedirectPrefix : String := "p"

/-- The router that `main` builds (the `// Routing` block). -/
def mainRouter : Mux :=
  let router : Mux := {}
  let router := router.Use Middleware.Logger
  let router := router.Use Middleware.RedirectSlashes
  let router := router.Get "/" HandlerFunc.handleWelcome
  let router := router.Get "/{uri}" HandlerFunc.handleRedirect
  let router := router.Get ("/" ++ pageRedirectPrefix ++ "/{uri}") HandlerFunc.handlePageRedirect
  let router := router.Get "/api/{uri}" HandlerFunc.handleGetRedirects
  let router := router.Delete "/api/{uri}" HandlerFunc.handleDelete
  let router := router.Get "/api/search" HandlerFunc.handleSearch
  let router := router.Post "/api/new" HandlerFunc.handleCreate
  router

/-- The pool that `main` builds from the configuration (the `// Init redis
pool` block): the arguments are passed in the order written there. -/
def mainPool (kf : Koanf) : Pool :=
  getRedisPool
    (kf.String "cache.address")
    (kf.String "cache.password")
    (kf.Int "cache.max_idle")
    (kf.Int "cache.max_active")
    (Duration.mul (kf.Duration "cache.timeout") Millisecond)

/-- The server that `main` configures. -/
def mainServer (kf : Koanf) (router : Mux) : Server :=
  { Addr := kf.String "server.address",
    Handler := router,
    ReadTimeout := Duration.mul (kf.Duration "server.read_timeout") Millisecond,
    WriteTimeout := Duration.mul (kf.Duration "server.write_timeout") Millisecond,
    IdleTimeout := Duration.mul (kf.Duration "server.idle_timeout") Millisecond }

/-- The function `main`, as a transformer of the world.  `log.Fatalf` logs and
sets the exit status to `1`; nothing after it runs. -/
def main (env : Env) (kf : Koanf) (w : World) : World :=
  if kf.Bool "version" then
    { w with stdout := w.stdout ++
        ["Commit: " ++ w.buildVersion ++ "\nBuild: " ++ w.buildDate ++ "\n"] }
  else
    let w := { w with logged := w.logged ++
        ["Version: " ++ w.buildVersion ++ " | Build: " ++ w.buildDate ++ "\n"] }
    let w := { w with baseURL := kf.String "base_url" }
    let w := if kf.Int "url_length" ≠ 0
      then { w with shortURLLength := kf.Int "url_length" } else w
    let w := if kf.String "redirect_template_path" ≠ ""
      then { w with redirectTplPath := kf.String "redirect_template_path" } else w
    match env.ParseFiles w.redirectTplPath with
    | .error err =>
      { w with redirectTpl := none,
               logged := w.logged ++ ["couldn't load redirect template: " ++ err],
               exited := some 1 }
    | .ok tpl =>
      let w := { w with redirectTpl := some tpl }
      let w := { w with str := some (redisstoreNew (mainPool kf)) }
      let router := mainRouter
      let w := { w with router := some router }
      let server := mainServer kf router
      let w := { w with logged := w.logged ++ ["listening on - " ++ kf.String "server.address"],
                        server := some server }
      match env.ListenAndServe server with
      | some err =>
        { w with logged := w.logged ++ ["error starting server: " ++ err], exited := some 1 }
      | none => w

/-! ## Concrete inputs -/

/-- String conversions that reject every string. -/
def noConv : Strconv :=
  { parseInt := fun _ => 0, parseBool := fun _ => false, parseUnits := fun _ => 0 }

/-- String conversions as far as the sample values below need them: `12`
reads as twelve, `7.9` as seven, and every other string is rejected. -/
def sampleConv : Strconv :=
  { parseInt := fun s => if s = "12" then 12 else if s = "7.9" then 7 else 0,
    parseBool := fun _ => false,
    parseUnits := fun _ => 0 }

/-- A configuration whose only key is `url_length`, with the given value. -/
def lengthConfig (v : Value) : Koanf :=
  { data := [("url_length", v)], conv := sampleConv }

/-- Surroundings in which only the default template file exists and the server
keeps serving. -/
def defaultTemplateEnv : Env :=
  { ParseFiles := fun path =>
      if path = "./templates/redirect_page.tpl" then .ok { file := path }
      else .error "open: no such file or directory",
    ListenAndServe := fun _ => none }

/-- Surroundings in which the template loads and the server keeps serving. -/
def quietEnv : Env :=
  { ParseFiles := fun path => .ok { file := path }, ListenAndServe := fun _ => none }

/-- A network on which every dial and every `AUTH` succeeds. -/
def openNet : Net :=
  { dial := fun _ _ _ => .ok (), auth := fun _ => .ok () }

/-- A configuration with `max_active = 10`, `max_idle = 5`, a timeout of `250`
and a code length of `12`. -/
def sampleConfig : Koanf :=
  { data := [ ("base_url", .str "https://lil.example"),
              ("url_length", .int 12),
              ("cache.address", .str "localhost:6379"),
              ("cache.max_active", .int 10),
              ("cache.max_idle", .int 5),
              ("cache.timeout", .int 250) ],
    conv := noConv }

/-- A configuration in which only the version flag is set. -/
def versionConfig : Koanf :=
  { data := [("version", .bool true)], conv := noConv }

/-- Rules with codes of eight lower-case letters or digits, the reserved
segment `p`, and targets that start with `https://` and go on. -/
def sampleRules : LinkRules :=
  { codeLength := 8,
    codeLength_pos := by decide,
    alphabet := "abcdefghijklmnopqrstuvwxyz0123456789".data,
    reserved := "p",
    absoluteURL := fun url =>
      "https://".data.isPrefixOf url.data && decide ("https://".length < url.length),
    absoluteURL_empty := by decide }

/-- The code `abc12345`. -/
def codeAbc : Code sampleRules := ⟨"abc12345", by decide⟩

/-- The code `zzz99999`. -/
def codeZzz : Code sampleRules := ⟨"zzz99999", by decide⟩

/-- The target `https://example.com/a`. -/
def targetA : TargetURL sampleRules := ⟨"https://example.com/a", by decide⟩

/-- The target `https://example.com/b`. -/
def targetB : TargetURL sampleRules := ⟨"https://example.com/b", by decide⟩

/-- The empty store. -/
def emptyStore : LinkStore sampleRules :=
  { records := [] }

/-- A store that already holds the code `abc12345`, without expiry. -/
def takenStore : LinkStore sampleRules :=
  { records := [ { code := codeAbc, target_url := targetA,
                   created_at := 0, expires_at := none } ] }

/-- A store that holds the code `zzz99999` without expiry and the code
`abc12345` with an expiry at time `3`. -/
def staleStore : LinkStore sampleRules :=
  { records := [ { code := codeZzz, target_url := targetA,
                   created_at := 0, expires_at := none },
                 { code := codeAbc, target_url := targetA,
                   created_at := 1, expires_at := some 3 } ] }

/-! ## Auxiliary facts about paths and the route table -/

theorem splitSlash_of_not_mem (cs : List Char) (h : '/' ∉ cs) : splitSlash cs = [cs] := by
  induction cs with
  | nil => rfl
  | cons c cs ih =>
    have hc : c ≠ '/' := fun e => h (e ▸ List.mem_cons_self _ _)
    have hcs : '/' ∉ cs := fun m => h (List.mem_cons_of_mem _ m)
    simp [splitSlash, hc, ih hcs]

theorem getLast?_segment_ne_slash (pre cs : List Char) (hne : cs ≠ []) (h : '/' ∉ cs) :
    (pre ++ cs).getLast? ≠ some '/' := by
  rw [List.getLast?_append_of_ne_nil _ hne]
  intro e
  exact h (List.mem_of_getLast?_eq_some e)

/-- The endpoints of the router built by `main`, with their patterns parsed. -/
theorem mainRouter_endpoints :
    mainRouter.routes.filterMap Route.endpoint =
      [ ⟨.GET, [], [], .handleWelcome⟩,
        ⟨.GET, [.param ['u', 'r', 'i']], [['u', 'r', 'i']], .handleRedirect⟩,
        ⟨.GET, [.static ['p'], .param ['u', 'r', 'i']], [['u', 'r', 'i']], .handlePageRedirect⟩,
        ⟨.GET, [.static ['a', 'p', 'i'], .param ['u', 'r', 'i']], [['u', 'r', 'i']],
          .handleGetRedirects⟩,
        ⟨.DELETE, [.static ['a', 'p', 'i'], .param ['u', 'r', 'i']], [['u', 'r', 'i']],
          .handleDelete⟩,
        ⟨.GET, [.static ['a', 'p', 'i'], .static ['s', 'e', 'a', 'r', 'c', 'h']], [],
          .handleSearch⟩,
        ⟨.POST, [.static ['a', 'p', 'i'], .static ['n', 'e', 'w']], [], .handleCreate⟩ ] := by
  decide

theorem mainRouter_middlewares :
    mainRouter.middlewares = [.Logger, .RedirectSlashes] := by
  decide

/-- The rendering of the integer zero parses as the zero duration. -/
theorem ParseDuration_format_zero (sc : Strconv) :
    sc.ParseDuration (Value.int 0).format = 0 := by
  have h : (Value.int 0).format = "0" := by decide
  rw [h]
  simp [Strconv.ParseDuration]

theorem wrapInt64_of_range (x : Int) (h0 : 0 ≤ x) (h1 : x < 2 ^ 63) : wrapInt64 x = x := by
  unfold wrapInt64
  norm_num at h1 ⊢
  omega

/-- A request whose path does not end in `/` passes the middlewares of the
router built by `main` and reaches the route lookup with the given segments. -/
theorem mainRouter_serve (method : Method) (path : String) (segs : List (List Char))
    (hlast : path.data.getLast? ≠ some '/')
    (hsegs : pathSegments path.data = some segs) :
    mainRouter.ServeHTTP method path =
      match findRoute method (mainRouter.routes.filterMap Route.endpoint) [] segs with
      | some (h, ps) => .served h ps
      | none => .noRoute := by
  unfold Mux.ServeHTTP
  rw [mainRouter_middlewares]
  simp only [Mux.serveWith, hlast, and_false, if_false, Mux.routeHTTP, hsegs]

/-- `GET /c` reaches `handleRedirect` with `uri = c`. -/
theorem route_direct (c : String) (hne : c.data ≠ []) (hs : '/' ∉ c.data) :
    mainRouter.ServeHTTP .GET ("/" ++ c) = .served .handleRedirect [("uri", c)] := by
  have hlast : ("/" ++ c).data.getLast? ≠ some '/' := by
    rw [String.data_append]
    exact getLast?_segment_ne_slash _ _ hne hs
  have hsegs : pathSegments ("/" ++ c).data = some [c.data] := by
    rw [String.data_append]
    show pathSegments ('/' :: c.data) = _
    simp [pathSegments, hne, splitSlash_of_not_mem _ hs]
  rw [mainRouter_serve _ _ _ hlast hsegs, mainRouter_endpoints]
  by_cases h1 : ['p'] = c.data
  · have hc : "p" = c := String.ext h1
    simp [findRoute, stepStatic, stepParam, ← h1, hc]
  · by_cases h2 : ['a', 'p', 'i'] = c.data
    · have hc : "api" = c := String.ext h2
      simp [findRoute, stepStatic, stepParam, ← h2, hc]
    · simp [findRoute, stepStatic, stepParam, h1, h2, hne]

/-- The segments of `/pre/c` for a literal first segment `pre`. -/
theorem pathSegments_two (pre : List Char) (c : String) (hpre : '/' ∉ pre)
    (hs : '/' ∉ c.data) :
    pathSegments ('/' :: (pre ++ '/' :: c.data)) = some [pre, c.data] := by
  have hsplit : ∀ a : List Char, '/' ∉ a →
      splitSlash (a ++ '/' :: c.data) = [a, c.data] := by
    intro a
    induction a with
    | nil => intro _; simp [splitSlash, splitSlash_of_not_mem _ hs]
    | cons x a ih =>
      intro hx
      have hx1 : x ≠ '/' := fun e => hx (e ▸ List.mem_cons_self _ _)
      have hx2 : '/' ∉ a := fun m => hx (List.mem_cons_of_mem _ m)
      simp [splitSlash, hx1, ih hx2]
  simp [pathSegments, hsplit pre hpre]

/-- `GET /p/c` reaches `handlePageRedirect` with `uri = c`. -/
theorem route_interstitial (c : String) (hne : c.data ≠ []) (hs : '/' ∉ c.data) :
    mainRouter.ServeHTTP .GET ("/" ++ pageRedirectPrefix ++ "/" ++ c) =
      .served .handlePageRedirect [("uri", c)] := by
  have hdata : ("/" ++ pageRedirectPrefix ++ "/" ++ c).data = '/' :: (['p'] ++ '/' :: c.data) := by
    simp only [String.data_append]
    rfl
  have hlast : ("/" ++ pageRedirectPrefix ++ "/" ++ c).data.getLast? ≠ some '/' := by
    rw [String.data_append]
    exact getLast?_segment_ne_slash _ _ hne hs
  have hsegs : pathSegments ("/" ++ pageRedirectPrefix ++ "/" ++ c).data =
      some [['p'], c.data] := by
    rw [hdata]
    exact pathSegments_two ['p'] c (by decide) hs
  rw [mainRouter_serve _ _ _ hlast hsegs, mainRouter_endpoints]
  simp [findRoute, stepStatic, stepParam, hne]

/-- `GET /api/c` reaches `handleGetRedirects` with `uri = c`, for every `c`
other than `search`. -/
theorem route_api (c : String) (hne : c.data ≠ []) (hs : '/' ∉ c.data) (hc : c ≠ "search") :
    mainRouter.ServeHTTP .GET ("/api/" ++ c) = .served .handleGetRedirects [("uri", c)] := by
  have hdata : ("/api/" ++ c).data = '/' :: (['a', 'p', 'i'] ++ '/' :: c.data) := by
    simp only [String.data_append]
    rfl
  have hlast : ("/api/" ++ c).data.getLast? ≠ some '/' := by
    rw [String.data_append]
    exact getLast?_segment_ne_slash _ _ hne hs
  have hsegs : pathSegments ("/api/" ++ c).data = some [['a', 'p', 'i'], c.data] := by
    rw [hdata]
    exact pathSegments_two ['a', 'p', 'i'] c (by decide) hs
  have h1 : ¬ ['s', 'e', 'a', 'r', 'c', 'h'] = c.data := fun e => hc (String.ext e.symm)
  rw [mainRouter_serve _ _ _ hlast hsegs, mainRouter_endpoints]
  by_cases h2 : ['n', 'e', 'w'] = c.data
  · have hn : "new" = c := String.ext h2
    simp [findRoute, stepStatic, stepParam, ← h2, hn]
  · simp [findRoute, stepStatic, stepParam, h1, h2, hne]

/-- The template path in force once `main` has read the configuration. -/
theorem main_redirectTplPath (env : Env) (kf : Koanf) (w : World)
    (hv : kf.Bool "version" = false) :
    (main env kf w).redirectTplPath =
      if kf.String "redirect_template_path" ≠ "" then kf.String "redirect_template_path"
      else w.redirectTplPath := by
  unfold main
  simp only [hv, Bool.false_eq_true, if_false]
  by_cases h1 : kf.Int "url_length" = 0 <;>
    by_cases h2 : kf.String "redirect_template_path" = "" <;>
    simp only [h1, h2, ne_eq, not_true_eq_false, not_false_eq_true, if_true, if_false]
  all_goals
    split
    · rfl
    · split <;> rfl

/-- When the version flag is off and the template at the path in force loads,
`main` stores the store built on `mainPool`. -/
theorem main_str (env : Env) (kf : Koanf) (w : World) (tpl : Template)
    (hv : kf.Bool "version" = false)
    (hp : env.ParseFiles
        (if kf.String "redirect_template_path" ≠ "" then kf.String "redirect_template_path"
         else w.redirectTplPath) = .ok tpl) :
    (main env kf w).str = some (redisstoreNew (mainPool kf)) := by
  unfold main
  simp only [hv, Bool.false_eq_true, if_false]
  by_cases h1 : kf.Int "url_length" = 0 <;>
    by_cases h2 : kf.String "redirect_template_path" = "" <;>
    simp only [h1, h2, ne_eq, not_true_eq_false, not_false_eq_true, if_true, if_false] at hp ⊢
  all_goals
    split
    · rename_i err heq
      rw [hp] at heq
      cases heq
    · split <;> rfl

/-- When the version flag is off, `main` sets the code length from the
configuration whatever happens afterwards. -/
theorem main_shortURLLength_eq (env : Env) (kf : Koanf) (w : World)
    (hv : kf.Bool "version" = false) :
    (main env kf w).shortURLLength =
      if kf.Int "url_length" ≠ 0 then kf.Int "url_length" else w.shortURLLength := by
  unfold main
  simp only [hv, Bool.false_eq_true, if_false]
  by_cases h1 : kf.Int "url_length" = 0 <;>
    by_cases h2 : kf.String "redirect_template_path" = "" <;>
    simp only [h1, h2, ne_eq, not_true_eq_false, not_false_eq_true, if_true, if_false]
  all_goals
    split
    · rfl
    · split <;> rfl

/-! ## The pool built by `main` -/

/-- For every configuration the pool built by `main` takes `MaxActive` from
`cache.max_idle` and `MaxIdle` from `cache.max_active`. -/
theorem mainPool_limits (kf : Koanf) :
    (mainPool kf).MaxActive = kf.Int "cache.max_idle" ∧
      (mainPool kf).MaxIdle = kf.Int "cache.max_active" :=
  ⟨rfl, rfl⟩

/-- C1, evaluated on the configuration `max_active = 10`, `max_idle = 5`: the
pool that `main` builds has `MaxActive = 5` and `MaxIdle = 10`, the two
configured values exchanged. -/
theorem main_pool_limits_exchanged :
    sampleConfig.Int "cache.max_active" = 10 ∧ sampleConfig.Int "cache.max_idle" = 5 ∧
      ((main quietEnv sampleConfig {}).str.map fun st => (st.pool.MaxActive, st.pool.MaxIdle))
        = some (5, 10) := by
  decide

/-- C2: whatever the arguments, the pool returned by `getRedisPool` has `Wait`
set, is never fail-fast (no number of active connections gets a caller
rejected), and at a positive `MaxActive` that has been reached the caller
waits. -/
theorem getRedisPool_wait (address password : String) (maxActive maxIdle : Int)
    (timeout : Duration) (active : Int) :
    (getRedisPool address password maxActive maxIdle timeout).Wait = true ∧
      (getRedisPool address password maxActive maxIdle timeout).admission active
        ≠ Admission.rejected ∧
      (0 < maxActive → maxActive ≤ active →
        (getRedisPool address password maxActive maxIdle timeout).admission active
          = Admission.wait) := by
  refine ⟨rfl, ?_, ?_⟩
  · simp only [Pool.admission, getRedisPool]
    split <;> simp
  · intro h0 h1
    simp [Pool.admission, getRedisPool, h0, h1]

/-- C2 at a concrete input: with ten connections out of ten handed out the
caller waits. -/
theorem getRedisPool_wait_witness :
    (getRedisPool "localhost:6379" "" 10 5 250000000).admission 10 = Admission.wait :=
  (getRedisPool_wait "localhost:6379" "" 10 5 250000000 10).2.2 (by decide) (by decide)

/-- C3: for every timeout `t`, the dial function of the pool returned by
`getRedisPool` connects over TCP to the address under connect timeout `t`,
and every connection it opens has connect, read and write timeout all equal
to `t`; it does open one whenever the network connection succeeds and the
password, if any, is accepted, and a failed network connection is its error. -/
theorem getRedisPool_dial_timeouts (address password : String) (maxActive maxIdle : Int)
    (t : Duration) (net : Net) :
    (∀ c, (getRedisPool address password maxActive maxIdle t).Dial net = .ok c →
        c.connectTimeout = t ∧ c.readTimeout = t ∧ c.writeTimeout = t) ∧
      (net.dial "tcp" address t = .ok () → (password = "" ∨ net.auth password = .ok ()) →
        ∃ c, (getRedisPool address password maxActive maxIdle t).Dial net = .ok c) ∧
      (∀ e, net.dial "tcp" address t = .error e →
        (getRedisPool address password maxActive maxIdle t).Dial net = .error e) := by
  have hd : (getRedisPool address password maxActive maxIdle t).Dial net =
      match net.dial "tcp" address t with
      | .error e => .error e
      | .ok () =>
        if password ≠ "" then
          match net.auth password with
          | .error e => .error e
          | .ok () => .ok { network := "tcp", address := address, connectTimeout := t,
                            readTimeout := t, writeTimeout := t, password := password }
        else .ok { network := "tcp", address := address, connectTimeout := t,
                   readTimeout := t, writeTimeout := t, password := password } := rfl
  rw [hd]
  refine ⟨?_, ?_, ?_⟩
  · intro c hc
    cases hdial : net.dial "tcp" address t with
    | error e => rw [hdial] at hc; cases hc
    | ok u =>
      rw [hdial] at hc
      by_cases hpw : password = ""
      · simp only [hpw, ne_eq, not_true_eq_false, if_false] at hc
        cases hc
        exact ⟨rfl, rfl, rfl⟩
      · simp only [hpw, ne_eq, not_false_eq_true, if_true] at hc
        cases hauth : net.auth password with
        | error e => rw [hauth] at hc; cases hc
        | ok v =>
          rw [hauth] at hc
          cases hc
          exact ⟨rfl, rfl, rfl⟩
  · intro hok hpw
    rw [hok]
    by_cases hp : password = ""
    · simp [hp]
    · rcases hpw with hpw | hpw
      · exact absurd hpw hp
      · simp [hp, hpw]
  · intro e he
    rw [he]

/-- C3 at a concrete input: on an open network the pool dials a connection
whose three timeouts are the one given. -/
theorem getRedisPool_dial_timeouts_witness :
    ∃ c, (getRedisPool "localhost:6379" "secret" 10 5 250000000).Dial openNet = .ok c ∧
      c.connectTimeout = 250000000 ∧ c.readTimeout = 250000000 ∧
      c.writeTimeout = 250000000 :=
  have h := getRedisPool_dial_timeouts "localhost:6379" "secret" 10 5 250000000 openNet
  match h.2.1 rfl (Or.inr rfl) with
  | ⟨c, hc⟩ => ⟨c, hc, h.1 c hc⟩

/-- C7 as stated fails: the pool returned for these arguments has no positive
idle timeout. -/
theorem getRedisPool_idle_timeout_not_positive :
    ¬ 0 < (getRedisPool "localhost:6379" "" 10 5 250000000).IdleTimeout := by
  decide

/-- C7, amended: for every argument list the pool returned by `getRedisPool` has
`IdleTimeout` zero, so no connection is ever closed for having sat idle,
however long. -/
theorem getRedisPool_no_idle_reaping (address password : String) (maxActive maxIdle : Int)
    (timeout : Duration) (idleSince now : Int) :
    (getRedisPool address password maxActive maxIdle timeout).IdleTimeout = 0 ∧
      (getRedisPool address password maxActive maxIdle timeout).prunesIdle idleSince now
        = false := by
  simp [getRedisPool, Pool.prunesIdle]

/-- C10: when `cache.timeout` is configured as the integer `n` with `0 ≤ n` and
`n * 10^6 < 2^63`, in every run of `main` that gets as far as building the
pool (the version flag is off and the template at the path in force loads),
the timeout handed to `getRedisPool` is `n * 10^6` nanoseconds, that is `n`
milliseconds. -/
theorem main_pool_timeout_millis (env : Env) (kf : Koanf) (w : World) (n : Int)
    (tpl : Template)
    (hv : kf.Bool "version" = false)
    (hp : env.ParseFiles
        (if kf.String "redirect_template_path" ≠ "" then kf.String "redirect_template_path"
         else w.redirectTplPath) = .ok tpl)
    (hn : kf.Get "cache.timeout" = some (.int n))
    (h0 : 0 ≤ n) (hb : n * 10 ^ 6 < 2 ^ 63) :
    (main env kf w).str = some (redisstoreNew (getRedisPool
      (kf.String "cache.address") (kf.String "cache.password")
      (kf.Int "cache.max_idle") (kf.Int "cache.max_active") (n * 1000000))) := by
  have hd : kf.Duration "cache.timeout" = n := by
    unfold Koanf.Duration Koanf.Int64 Koanf.String
    rw [hn]
    by_cases hz : n = 0
    · subst hz
      simpa using ParseDuration_format_zero kf.conv
    · simp [hz]
  have hm : Duration.mul (kf.Duration "cache.timeout") Millisecond = n * 1000000 := by
    rw [hd]
    unfold Duration.mul Millisecond
    exact wrapInt64_of_range _ (by positivity) (by norm_num at hb ⊢; exact hb)
  rw [main_str env kf w tpl hv hp]
  unfold mainPool
  rw [hm]

/-- C10 at a concrete input: where only the default template file exists, a
configured `250` gives `250 * 10^6` nanoseconds. -/
theorem main_pool_timeout_millis_witness :
    (main defaultTemplateEnv sampleConfig {}).str = some (redisstoreNew (getRedisPool
      (sampleConfig.String "cache.address") (sampleConfig.String "cache.password")
      (sampleConfig.Int "cache.max_idle") (sampleConfig.Int "cache.max_active")
      (250 * 1000000))) :=
  main_pool_timeout_millis defaultTemplateEnv sampleConfig {} 250
    { file := "./templates/redirect_page.tpl" } (by decide) rfl (by decide)
    (by decide) (by decide)

/-! ## Routing -/

/-- C4: for every non-empty single path segment `c`, `GET /c` is dispatched to
`handleRedirect` and `GET /p/c` (the reserved prefix segment) to
`handlePageRedirect`, each with `c` bound to the parameter `uri`. -/
theorem route_redirect_and_page (c : String) (hne : c.data ≠ []) (hs : '/' ∉ c.data) :
    mainRouter.ServeHTTP .GET ("/" ++ c) = .served .handleRedirect [("uri", c)] ∧
      mainRouter.ServeHTTP .GET ("/" ++ pageRedirectPrefix ++ "/" ++ c)
        = .served .handlePageRedirect [("uri", c)] :=
  ⟨route_direct c hne hs, route_interstitial c hne hs⟩

/-- C4 at the code `abc12345`. -/
theorem route_redirect_and_page_witness :
    mainRouter.ServeHTTP .GET ("/" ++ "abc12345")
        = .served .handleRedirect [("uri", "abc12345")] ∧
      mainRouter.ServeHTTP .GET ("/" ++ pageRedirectPrefix ++ "/" ++ "abc12345")
        = .served .handlePageRedirect [("uri", "abc12345")] :=
  route_redirect_and_page "abc12345" (by decide) (by decide)

/-- C5 as stated fails: `search` is a non-empty single path segment, and
`GET /api/search` is dispatched to `handleSearch` with no parameter bound, not
to `handleGetRedirects`. -/
theorem route_api_search_is_search :
    "search".data ≠ [] ∧ '/' ∉ "search".data ∧
      mainRouter.ServeHTTP .GET ("/api/" ++ "search") = .served .handleSearch [] ∧
      mainRouter.ServeHTTP .GET ("/api/" ++ "search")
        ≠ .served .handleGetRedirects [("uri", "search")] := by
  decide

/-- C5, amended: for every non-empty single path segment `c` other than
`search`, `GET /api/c` is dispatched to `handleGetRedirects` with `uri = c`. -/
theorem route_api_lookup (c : String) (hne : c.data ≠ []) (hs : '/' ∉ c.data)
    (hc : c ≠ "search") :
    mainRouter.ServeHTTP .GET ("/api/" ++ c) = .served .handleGetRedirects [("uri", c)] :=
  route_api c hne hs hc

/-- C5, amended, at the code `abc12345`. -/
theorem route_api_lookup_witness :
    mainRouter.ServeHTTP .GET ("/api/" ++ "abc12345")
      = .served .handleGetRedirects [("uri", "abc12345")] :=
  route_api_lookup "abc12345" (by decide) (by decide) (by decide)

/-! ## Effect of `main` on the package variables -/

/-- C6 as stated fails: with `url_length` configured as the string `abc` or as
the boolean `true` (neither absent nor `0`) the code length stays `8`, and
with `url_length` configured as the number `7.9` it becomes `7`; in none of
the three is it the configured value. -/
theorem main_shortURLLength_not_configured_value :
    (main quietEnv (lengthConfig (.str "abc")) {}).shortURLLength = 8 ∧
      (main quietEnv (lengthConfig (.bool true)) {}).shortURLLength = 8 ∧
      (main quietEnv (lengthConfig (.other "7.9")) {}).shortURLLength = 7 := by
  decide

/-- C6, amended: when `main` reads the configuration (the version flag is off)
starting from the initial length `8`, the code length afterwards is `8` if
`url_length` is absent or its integer reading is `0`, and is that integer
reading otherwise: the configured value itself when it is an integer, the
numeric conversion of its rendering when it is of any other kind. -/
theorem main_shortURLLength (env : Env) (kf : Koanf) (w : World)
    (hw : w.shortURLLength = 8) (hv : kf.Bool "version" = false) :
    (kf.Get "url_length" = none → (main env kf w).shortURLLength = 8) ∧
      (∀ n : Int, kf.Get "url_length" = some (.int n) →
        (main env kf w).shortURLLength = if n = 0 then 8 else n) ∧
      (∀ v : Value, kf.Get "url_length" = some v → (∀ n : Int, v ≠ .int n) →
        (main env kf w).shortURLLength =
          if kf.conv.parseInt v.format = 0 then 8 else kf.conv.parseInt v.format) := by
  rw [main_shortURLLength_eq env kf w hv, hw]
  refine ⟨?_, ?_, ?_⟩
  · intro h
    simp [Koanf.Int, Koanf.Int64, h]
  · intro n h
    by_cases hn : n = 0 <;> simp [Koanf.Int, Koanf.Int64, h, hn]
  · intro v h hv'
    have hi : kf.Int "url_length" = kf.conv.parseInt v.format := by
      unfold Koanf.Int Koanf.Int64
      rw [h]
      cases v with
      | int n => exact absurd rfl (hv' n)
      | str s => rfl
      | bool b => rfl
      | other r => rfl
    rw [hi]
    by_cases hz : kf.conv.parseInt v.format = 0 <;> simp [hz]

/-- C6, amended, at concrete inputs: the string `12` gives the length `12`. -/
theorem main_shortURLLength_witness :
    (main quietEnv (lengthConfig (.str "12")) {}).shortURLLength = 12 :=
  (main_shortURLLength quietEnv (lengthConfig (.str "12")) {} rfl (by decide)).2.2
    (.str "12") (by decide) (fun n h => by cases h)

/-- C9: when the version flag is set, `main` only prints the commit and build
date: the world afterwards is the world before with that one line added to the
standard output, so `baseURL`, `shortURLLength`, `redirectTplPath`,
`redirectTpl` and `str` are unchanged, and no router, server, log line or exit
status is added. -/
theorem main_version_only_prints (env : Env) (kf : Koanf) (w : World)
    (hv : kf.Bool "version" = true) :
    main env kf w = { w with stdout := w.stdout ++
        ["Commit: " ++ w.buildVersion ++ "\nBuild: " ++ w.buildDate ++ "\n"] } ∧
      (main env kf w).baseURL = w.baseURL ∧
      (main env kf w).shortURLLength = w.shortURLLength ∧
      (main env kf w).redirectTplPath = w.redirectTplPath ∧
      (main env kf w).redirectTpl = w.redirectTpl ∧
      (main env kf w).str = w.str ∧
      (main env kf w).router = w.router ∧
      (main env kf w).server = w.server ∧
      (main env kf w).logged = w.logged ∧
      (main env kf w).exited = w.exited := by
  have h : main env kf w = { w with stdout := w.stdout ++
      ["Commit: " ++ w.buildVersion ++ "\nBuild: " ++ w.buildDate ++ "\n"] } := by
    unfold main
    simp only [hv, if_true]
  rw [h]
  exact ⟨rfl, rfl, rfl, rfl, rfl, rfl, rfl, rfl, rfl, rfl⟩

/-- C9 at a configuration with only the version flag, from the initial world. -/
theorem main_version_only_prints_witness :
    (main quietEnv versionConfig {}).stdout = ["Commit: unknown\nBuild: unknown\n"] ∧
      (main quietEnv versionConfig {}).server = none ∧
      (main quietEnv versionConfig {}).router = none :=
  have h := main_version_only_prints quietEnv versionConfig {} (by decide)
  ⟨by rw [h.1]; decide, h.2.2.2.2.2.2.2.1, h.2.2.2.2.2.2.1⟩

/-! ## Link Store -/

/-- C8 as stated fails, in two ways.  On a store that already holds `abc12345`
for another target, `Create` signals `CodeCollision` and the following `Get`
returns the earlier record, whose target is not the one just given.  On an
empty store that the pooled client cannot reach for `Create`, `Create`
signals `Unavailable` and the following `Get` finds nothing. -/
theorem createThenGet_collision_or_unavailable :
    ((takenStore.Create codeAbc targetB none 1 (.ok ())).1 = .error StoreError.CodeCollision ∧
      ¬ ∃ r, takenStore.createThenGet codeAbc targetB 1 2 (.ok ()) (.ok ()) = .ok r ∧
        r.target_url = targetB ∧ r.code = codeAbc) ∧
    ((emptyStore.Create codeAbc targetB none 1
          (.error PoolError.ConnectTimeout)).1 = .error StoreError.Unavailable ∧
      ¬ ∃ r, emptyStore.createThenGet codeAbc targetB 1 2
          (.error PoolError.ConnectTimeout) (.ok ()) = .ok r ∧
        r.target_url = targetB ∧ r.code = codeAbc) := by
  refine ⟨⟨rfl, ?_⟩, ⟨rfl, ?_⟩⟩
  · rintro ⟨r, hr, hurl, -⟩
    have h : takenStore.createThenGet codeAbc targetB 1 2 (.ok ()) (.ok ()) =
        .ok { code := codeAbc, target_url := targetA, created_at := 0, expires_at := none } :=
      rfl
    rw [h] at hr
    cases hr
    revert hurl
    decide
  · rintro ⟨r, hr, -, -⟩
    have h : emptyStore.createThenGet codeAbc targetB 1 2
        (.error PoolError.ConnectTimeout) (.ok ()) = .error StoreError.NotFound := rfl
    rw [h] at hr
    cases hr

/-- C8, amended: for every valid target and every well-formed code that has no
live record in the store, when the pooled client reaches the backing store
for both operations, `Create` succeeds and the following `Get` returns the
record just created, with exactly that target and that code. -/
theorem createThenGet_fresh (ru : LinkRules) (s : LinkStore ru) (code : Code ru)
    (target_url : TargetURL ru) (t₀ t₁ : Nat) (link₀ link₁ : Transport)
    (hfree : s.lookup code t₀ = none) (h₀ : link₀ = .ok ()) (h₁ : link₁ = .ok ()) :
    ∃ r, (s.Create code target_url none t₀ link₀).1 = .ok r ∧
      s.createThenGet code target_url t₀ t₁ link₀ link₁ = .ok r ∧
      r.target_url = target_url ∧ r.code = code := by
  subst h₀ h₁
  have hc : s.Create code target_url none t₀ (.ok ()) =
      (.ok { code := code, target_url := target_url, created_at := t₀, expires_at := none },
       { records := s.records.filter (fun x => decide (x.code ≠ code)) ++
           [{ code := code, target_url := target_url, created_at := t₀,
              expires_at := none }] }) := by
    simp [LinkStore.Create, hfree]
  have hold : (s.records.filter (fun x => decide (x.code ≠ code))).find?
      (fun r => decide (r.code = code) && !r.expired t₁) = none := by
    rw [List.find?_eq_none]
    intro x hx
    have hne : x.code ≠ code := by simpa using (List.mem_filter.mp hx).2
    simp [hne]
  refine ⟨{ code := code, target_url := target_url, created_at := t₀, expires_at := none },
    ?_, ?_, rfl, rfl⟩
  · rw [hc]
  · unfold LinkStore.createThenGet
    rw [hc]
    simp only [LinkStore.Get, LinkStore.lookup, List.find?_append, hold]
    simp [ShortLinkRecord.expired]

/-- C8, amended, on a store that holds another code and an expired record of
the same code. -/
theorem createThenGet_fresh_witness :
    ∃ r, (staleStore.Create codeAbc targetB none 5 (.ok ())).1 = .ok r ∧
      staleStore.createThenGet codeAbc targetB 5 9 (.ok ()) (.ok ()) = .ok r ∧
      r.target_url = targetB ∧ r.code = codeAbc :=
  createThenGet_fresh sampleRules staleStore codeAbc targetB 5 9 (.ok ()) (.ok ()) rfl rfl rfl

end Lil
